import Mathlib

/-!
Verification of the YewChat chat panel (`src/components/chat.rs`).

The development shallowly embeds the panel's state machine:

* `Json`, `parseJson` model the JSON values and the text parser provided by
  `serde_json` (the fragment without numeric literals, which the chat
  protocol never uses; on every input exercised here the observable
  behaviour of `update` agrees with the Rust code).
* `WebSocketMessage`, `MessageData`, `MsgTypes` mirror the Rust structs,
  with `encodeWSMStr` / `decodeWSM` embedding the derived
  `Serialize`/`Deserialize` instances (camelCase field renaming, lowercase
  enum tokens, `Option` fields accepting both `null` and absence).
* `Chat`, `Msg`, `update` embed `Chat::update`; a `none` result models a
  panic reached through `.unwrap()`.
* `renderMessages` / `renderView` embed the message part of `Chat::view`;
  a `none` result models the panicking roster lookup.
-/

namespace YewChat

/-! ### JSON values -/

/-- A JSON value (the fragment used by the chat protocol; numeric literals
never occur in any frame the panel sends or receives). -/
inductive Json where
  | null
  | bool (b : Bool)
  | str (s : String)
  | arr (elems : List Json)
  | obj (members : List (String × Json))

/-! ### JSON text parsing (models `serde_json::from_str`'s lexical layer) -/

def isWsChar (c : Char) : Bool := [' ', '\n', '\t', '\r'].contains c

def skipWs : List Char → List Char
  | [] => []
  | c :: cs => if isWsChar c then skipWs cs else c :: cs

def unescapeChar (e : Char) : Option Char :=
  if e = 'n' then some '\n'
  else if e = 't' then some '\t'
  else if e = 'r' then some '\r'
  else if e = 'b' then some (Char.ofNat 8)
  else if e = 'f' then some (Char.ofNat 12)
  else if e = '"' ∨ e = '\\' ∨ e = '/' then some e
  else none

/-- Parse the body of a string literal, after the opening quote. -/
def parseStrBody : List Char → Option (List Char × List Char)
  | [] => none
  | c :: cs =>
    if c = '"' then some ([], cs)
    else if c = '\\' then
      match cs with
      | [] => none
      | e :: cs' =>
        match unescapeChar e with
        | none => none
        | some d =>
          match parseStrBody cs' with
          | none => none
          | some (s, r) => some (d :: s, r)
    else
      match parseStrBody cs with
      | none => none
      | some (s, r) => some (c :: s, r)

/-- Parse the elements of a non-empty array, fuel-bounded; `pv` parses one
value. -/
def parseListAux (pv : List Char → Option (Json × List Char)) :
    Nat → List Char → Option (List Json × List Char)
  | 0, _ => none
  | f + 1, cs =>
    match pv cs with
    | none => none
    | some (v, rest) =>
      match skipWs rest with
      | ']' :: rest' => some ([v], rest')
      | ',' :: rest' =>
        match parseListAux pv f rest' with
        | none => none
        | some (vs, rest'') => some (v :: vs, rest'')
      | _ => none

/-- Parse the members of a non-empty object, fuel-bounded; `pv` parses one
value. -/
def parseMembersAux (pv : List Char → Option (Json × List Char)) :
    Nat → List Char → Option (List (String × Json) × List Char)
  | 0, _ => none
  | f + 1, cs =>
    match skipWs cs with
    | '"' :: cs1 =>
      match parseStrBody cs1 with
      | none => none
      | some (k, cs2) =>
        match skipWs cs2 with
        | ':' :: cs3 =>
          match pv cs3 with
          | none => none
          | some (v, cs4) =>
            match skipWs cs4 with
            | '\x7d' :: cs5 => some ([(String.mk k, v)], cs5)
            | ',' :: cs5 =>
              match parseMembersAux pv f cs5 with
              | none => none
              | some (ms, cs6) => some ((String.mk k, v) :: ms, cs6)
            | _ => none
        | _ => none
    | _ => none

/-- Parse one JSON value, fuel-bounded (the fuel strictly exceeds the
character count at top level, which always suffices). -/
def parseVal : Nat → List Char → Option (Json × List Char)
  | 0, _ => none
  | f + 1, cs =>
    match skipWs cs with
    | 'n' :: 'u' :: 'l' :: 'l' :: rest => some (.null, rest)
    | 't' :: 'r' :: 'u' :: 'e' :: rest => some (.bool true, rest)
    | 'f' :: 'a' :: 'l' :: 's' :: 'e' :: rest => some (.bool false, rest)
    | '"' :: rest =>
      match parseStrBody rest with
      | none => none
      | some (s, rest') => some (.str (String.mk s), rest')
    | '[' :: rest =>
      match skipWs rest with
      | ']' :: rest' => some (.arr [], rest')
      | cs' =>
        match parseListAux (parseVal f) f cs' with
        | none => none
        | some (vs, rest') => some (.arr vs, rest')
    | '\x7b' :: rest =>
      match skipWs rest with
      | '\x7d' :: rest' => some (.obj [], rest')
      | cs' =>
        match parseMembersAux (parseVal f) f cs' with
        | none => none
        | some (ms, rest') => some (.obj ms, rest')
    | _ => none

/-- Parse a whole JSON document: one value, then only whitespace. -/
def parseJson (s : String) : Option Json :=
  match parseVal (s.data.length + 1) s.data with
  | some (j, rest) =>
    match skipWs rest with
    | [] => some j
    | _ => none
  | none => none

/-! ### Data model (`chat.rs` lines 14–48) -/

/-- `struct MessageData { from: String, message: String }` (the spec's
`ChatEntry {sender, body}`). -/
structure MessageData where
  «from» : String
  message : String
deriving DecidableEq

/-- `enum MsgTypes { Users, Register, Message }`, serialized with
`rename_all = "lowercase"`. -/
inductive MsgTypes where
  | Users
  | Register
  | Message
deriving DecidableEq

/-- `struct WebSocketMessage`, serialized with `rename_all = "camelCase"`
(the spec's `Frame`). -/
structure WebSocketMessage where
  message_type : MsgTypes
  data_array : Option (List String)
  data : Option String
deriving DecidableEq

/-- `struct UserProfile { name: String, avatar: String }`. -/
structure UserProfile where
  name : String
  avatar : String
deriving DecidableEq

/-- The mutable state of `struct Chat`: the roster and the message log
(`users` and `messages`; `chat_input`, the event-bus bridge and the
websocket handle are external capabilities, not data). -/
structure Chat where
  users : List UserProfile
  messages : List MessageData
deriving DecidableEq

/-! ### Protocol codec (the derived serde instances) -/

/-- The wire token of each `MsgTypes` variant (`rename_all = "lowercase"`). -/
def msgTypeToken : MsgTypes → String
  | .Users => "users"
  | .Register => "register"
  | .Message => "message"

/-- Deserialization of `MsgTypes` from a JSON value. -/
def decodeMsgTypes : Json → Option MsgTypes
  | .str "users" => some .Users
  | .str "register" => some .Register
  | .str "message" => some .Message
  | _ => none

/-- JSON string escaping of one character, as emitted on the wire. -/
def escapeChar (c : Char) : List Char :=
  if c = '"' then ['\\', '"']
  else if c = '\\' then ['\\', '\\']
  else if c = '\n' then ['\\', 'n']
  else if c = '\t' then ['\\', 't']
  else if c = '\r' then ['\\', 'r']
  else [c]

def escapeList : List Char → List Char
  | [] => []
  | c :: cs => escapeChar c ++ escapeList cs

/-- The characters of a JSON string literal for `s`. -/
def strLit (s : String) : List Char := '"' :: escapeList s.data ++ ['"']

def nullChars : List Char := ['n', 'u', 'l', 'l']

/-- The characters of a JSON array of string literals (non-empty case:
first element, then the remaining ones). -/
def namesBody : String → List String → List Char
  | n, [] => strLit n
  | n, n' :: ns => strLit n ++ ',' :: namesBody n' ns

/-- Serialization of the `data_array: Option<Vec<String>>` field value. -/
def optArrChars : Option (List String) → List Char
  | none => nullChars
  | some [] => ['[', ']']
  | some (n :: ns) => '[' :: namesBody n ns ++ [']']

/-- Serialization of an `Option<String>` field value. -/
def optStrChars : Option String → List Char
  | none => nullChars
  | some s => strLit s

/-- `serde_json::to_string` on a `WebSocketMessage` (derived `Serialize`:
fields in declaration order, camelCase keys, `None` as `null`). -/
def encodeWSMStr (m : WebSocketMessage) : String :=
  String.mk ('\x7b' :: (strLit "messageType" ++ (':' :: (strLit (msgTypeToken m.message_type)
    ++ (',' :: (strLit "dataArray" ++ (':' :: (optArrChars m.data_array
    ++ (',' :: (strLit "data" ++ (':' :: (optStrChars m.data ++ ['\x7d']))))))))))))

/-- First value bound to key `k` in the decoded object members. -/
def getField (ms : List (String × Json)) (k : String) : Option Json :=
  (ms.find? fun p => p.1 == k).map fun p => p.2

/-- A required JSON string. -/
def asString : Json → Option String
  | .str s => some s
  | _ => none

/-- `Vec<String>` from a JSON array: every element must be a string. -/
def decodeStrList : List Json → Option (List String)
  | [] => some []
  | .str s :: xs => (decodeStrList xs).map fun ys => s :: ys
  | _ => none

/-- An `Option<Vec<String>>` field: absent or `null` is `None`, an array of
strings is `Some`, anything else is an error. -/
def decodeOptArr : Option Json → Option (Option (List String))
  | none => some none
  | some .null => some none
  | some (.arr xs) => (decodeStrList xs).map some
  | some _ => none

/-- An `Option<String>` field: absent or `null` is `None`, a string is
`Some`, anything else is an error. -/
def decodeOptStr : Option Json → Option (Option String)
  | none => some none
  | some .null => some none
  | some (.str s) => some (some s)
  | some _ => none

/-- Derived `Deserialize` for `WebSocketMessage` on a parsed JSON value:
`messageType` is required, the `Option` fields tolerate `null` and absence,
unknown keys are ignored (serde's default). -/
def decodeWSM : Json → Option WebSocketMessage
  | .obj ms =>
    match getField ms "messageType" with
    | none => none
    | some jt =>
      match decodeMsgTypes jt with
      | none => none
      | some mt =>
        match decodeOptArr (getField ms "dataArray") with
        | none => none
        | some da =>
          match decodeOptStr (getField ms "data") with
          | none => none
          | some d => some ⟨mt, da, d⟩
  | _ => none

/-- `serde_json::from_str::<WebSocketMessage>` on wire text. -/
def fromStrWSM (s : String) : Option WebSocketMessage :=
  (parseJson s).bind decodeWSM

/-- Derived `Deserialize` for `MessageData`: required string fields `from`
and `message`. -/
def decodeMessageData : Json → Option MessageData
  | .obj ms =>
    match getField ms "from" with
    | none => none
    | some jf =>
      match asString jf with
      | none => none
      | some f =>
        match getField ms "message" with
        | none => none
        | some jm =>
          match asString jm with
          | none => none
          | some msg => some ⟨f, msg⟩
  | _ => none

/-- `serde_json::from_str::<MessageData>` on an inner `data` payload. -/
def fromStrMessageData (s : String) : Option MessageData :=
  (parseJson s).bind decodeMessageData

/-- Modelled from the spec: `encodeChatEntry` (§4.1), the serializer for the
nested `{from, message}` payload. `chat.rs` only derives `Deserialize` for
`MessageData`, so no serializer exists in the source; this one follows the
spec's wire format `{from: string, message: string}` in field order, with
the same string escaping as the frame encoder. -/
def encodeMessageDataStr (e : MessageData) : String :=
  String.mk ('\x7b' :: (strLit "from" ++ (':' :: (strLit e.«from»
    ++ (',' :: (strLit "message" ++ (':' :: (strLit e.message ++ ['\x7d']))))))))

/-! ### Roster rebuild and the panel reducer (`Chat::update`, lines 84–136) -/

/-- The avatar URL template applied to a username (`format!` at lines
95–99). -/
def avatarUrl (u : String) : String :=
  "https://avatars.dicebear.com/api/adventurer-neutral/" ++ u ++ ".svg"

/-- The roster rebuild performed on a `Users` frame (lines 90–101): one
profile per name, in order, no de-duplication. -/
def rebuildUsers (names : List String) : List UserProfile :=
  names.map fun u => ⟨u, avatarUrl u⟩

/-- `enum Msg`: an event-bus payload or a submit click. `SubmitMessage`
carries the input element's current value (`none` when the node lookup
fails, line 116–117). -/
inductive Msg where
  | HandleMsg (s : String)
  | SubmitMessage (input : Option String)

/-- The frame dispatch of `Msg::HandleMsg` after the outer decode (lines
88–113); `none` models a panic from `.unwrap()` on a missing or
undecodable inner `data` payload. The `Bool` is the re-render decision. -/
def handleWsMsg (st : Chat) (m : WebSocketMessage) : Option (Chat × Bool) :=
  match m.message_type with
  | .Users => some ({ st with users := rebuildUsers (m.data_array.getD []) }, true)
  | .Message =>
    match m.data with
    | none => none
    | some payload =>
      match fromStrMessageData payload with
      | none => none
      | some md => some ({ st with messages := st.messages ++ [md] }, true)
  | .Register => some (st, false)

/-- `Chat::update` (lines 84–136). The result is the next state, the
re-render decision, and the wire texts handed to the Channel Service;
`none` models a panic (`.unwrap()` on a failed outer or inner decode).
Clearing the input box (line 131) is a DOM effect outside the state. -/
def update (st : Chat) (msg : Msg) : Option (Chat × Bool × List String) :=
  match msg with
  | .HandleMsg s =>
    match fromStrWSM s with
    | none => none
    | some m =>
      match handleWsMsg st m with
      | none => none
      | some (st', r) => some (st', r, [])
  | .SubmitMessage none => some (st, false, [])
  | .SubmitMessage (some input) =>
    some (st, false, [encodeWSMStr ⟨.Message, none, some input⟩])

/-! ### Render projection (`Chat::view`, lines 138–196, message feed part) -/

/-- `str::ends_with` on Rust strings. -/
def rustEndsWith (s pat : String) : Bool :=
  pat.data.isSuffixOf s.data

/-- The rendered body of one message (lines 172–178): an `<img>` when the
body ends with `".gif"`, plain text otherwise. -/
inductive BodyHtml where
  | image (src : String)
  | text (content : String)
deriving DecidableEq

def renderBody (message : String) : BodyHtml :=
  if rustEndsWith message ".gif" then .image message else .text message

/-- One rendered message card: resolved avatar, sender name, body. -/
structure MessageCard where
  avatar : String
  sender : String
  body : BodyHtml
deriving DecidableEq

/-- Rendering of one log entry (lines 165–181): the un-guarded roster
lookup `find(..).unwrap()` at line 166 panics (`none`) when the sender is
not in the roster. -/
def renderMessage (users : List UserProfile) (m : MessageData) : Option MessageCard :=
  (users.find? fun u => u.name == m.«from»).map fun user =>
    ⟨user.avatar, m.«from», renderBody m.message⟩

/-- The message feed of `Chat::view`: every entry rendered in order; one
failed lookup fails the whole pass (`none`). -/
def renderMessages (users : List UserProfile) (msgs : List MessageData) :
    Option (List MessageCard) :=
  msgs.mapM (renderMessage users)

/-- The whole render pass: the roster cards (avatar, name) and the message
feed. -/
def renderView (st : Chat) : Option (List (String × String) × List MessageCard) :=
  (renderMessages st.users st.messages).map fun cards =>
    (st.users.map fun u => (u.avatar, u.name), cards)

/-! ### JSON values of encoded frames (used by the round-trip proof) -/

def jsonOfOptArr : Option (List String) → Json
  | none => .null
  | some ns => .arr (ns.map .str)

def jsonOfOptStr : Option String → Json
  | none => .null
  | some s => .str s

/-- The JSON value a serialized `WebSocketMessage` denotes. -/
def wsmJson (m : WebSocketMessage) : Json :=
  .obj [("messageType", .str (msgTypeToken m.message_type)),
        ("dataArray", jsonOfOptArr m.data_array),
        ("data", jsonOfOptStr m.data)]

/-- The JSON value a serialized `MessageData` denotes. -/
def mdJson (e : MessageData) : Json :=
  .obj [("from", .str e.«from»), ("message", .str e.message)]

/-! ## Theorems -/

/-- `rustEndsWith s pat` holds exactly when `s` splits as some prefix
followed by `pat`. -/
theorem rustEndsWith_iff (s pat : String) :
    rustEndsWith s pat = true ↔ ∃ p : String, s = p ++ pat := by
  unfold rustEndsWith
  rw [List.isSuffixOf_iff_suffix]
  constructor
  · rintro ⟨t, ht⟩
    exact ⟨String.mk t, String.ext (by simpa [String.data_append] using ht.symm)⟩
  · rintro ⟨p, rfl⟩
    exact ⟨p.data, by simp [String.data_append]⟩

/-- C1 counterexample: submitting the non-empty input `"hi"` sends a
`Message` frame whose `data` payload is the raw text `"hi"`; that payload
is not a JSON-encoded `ChatEntry` at all (its nested decode fails), and in
particular differs from the encoding of `{from: "alice", message: "hi"}`. -/
theorem C1_counterexample :
    update ⟨[], []⟩ (.SubmitMessage (some "hi"))
      = some (⟨[], []⟩, false, [encodeWSMStr ⟨.Message, none, some "hi"⟩])
    ∧ (fromStrWSM (encodeWSMStr ⟨.Message, none, some "hi"⟩)).map (fun m => m.data)
      = some (some "hi")
    ∧ fromStrMessageData "hi" = none
    ∧ "hi" ≠ encodeMessageDataStr ⟨"alice", "hi"⟩ :=
  ⟨by decide, by decide, by decide, by decide⟩

/-- C1 amended: for every submit of non-empty input text, the outbound wire
text is a `Message` frame whose `data` payload is the raw input text (no
`{from, message}` wrapping, and `currentUser` does not appear in the
frame); the panel state is unchanged and no re-render is requested. -/
theorem C1_submit_sends_raw_input (st : Chat) (input : String) (_h : input ≠ "") :
    update st (.SubmitMessage (some input))
      = some (st, false, [encodeWSMStr ⟨.Message, none, some input⟩]) := rfl

/-- C1 witness: the amended claim at state `⟨[], []⟩` and input `"hi"`. -/
theorem C1_submit_sends_raw_input_witness :
    ("hi" : String) ≠ ""
    ∧ update ⟨[], []⟩ (.SubmitMessage (some "hi"))
        = some (⟨[], []⟩, false, [encodeWSMStr ⟨.Message, none, some "hi"⟩]) :=
  ⟨by decide, C1_submit_sends_raw_input ⟨[], []⟩ "hi" (by decide)⟩

/-- C2: a `Message` frame whose inner payload `"oops"` is not a valid
`ChatEntry` makes `Chat::update` panic (the model's `none`), instead of
leaving the log unchanged and continuing; the same well-formed frame that
the panicking event would have been followed by is processed fine from the
same state. -/
theorem C2_bad_inner_payload_panics :
    update ⟨[], []⟩
        (.HandleMsg "\x7b\"messageType\":\"message\",\"data\":\"oops\"\x7d") = none
    ∧ update ⟨[], []⟩
        (.HandleMsg
          "\x7b\"messageType\":\"message\",\"data\":\"\x7b\\\"from\\\":\\\"a\\\",\\\"message\\\":\\\"hi\\\"\x7d\"\x7d")
      = some (⟨[], [⟨"a", "hi"⟩]⟩, true, []) :=
  ⟨by decide, by decide⟩

/-- C3: with a log entry from `"ghost"` and a roster not containing
`"ghost"`, the whole render pass fails (the un-guarded `find(..).unwrap()`
panics) instead of rendering a placeholder; the identical log renders fine
once the sender is in the roster. -/
theorem C3_unknown_sender_render_panics :
    renderView ⟨[], [⟨"ghost", "hi"⟩]⟩ = none
    ∧ renderView ⟨[⟨"ghost", avatarUrl "ghost"⟩], [⟨"ghost", "hi"⟩]⟩
      = some ([(avatarUrl "ghost", "ghost")],
              [⟨avatarUrl "ghost", "ghost", .text "hi"⟩]) :=
  ⟨by decide, by decide⟩

/-- C4 counterexample: submitting while the input text is `""` still sends
one outbound `Message` frame (with empty `data`), so the sent list is not
empty. -/
theorem C4_counterexample :
    (update ⟨[], []⟩ (.SubmitMessage (some ""))).map (fun r => r.2.2)
      = some [encodeWSMStr ⟨.Message, none, some ""⟩]
    ∧ [encodeWSMStr ⟨.Message, none, some ""⟩] ≠ ([] : List String) :=
  ⟨by decide, by decide⟩

/-- C4 amended: submitting while the input text is the empty string sends a
`Message` frame whose `data` is the empty string (the source has no
emptiness guard), and the panel state — in particular the message log — is
not mutated. -/
theorem C4_empty_submit_still_sends (st : Chat) :
    update st (.SubmitMessage (some ""))
      = some (st, false, [encodeWSMStr ⟨.Message, none, some ""⟩]) := rfl

/-- C6: a `Users` frame replaces the roster wholesale, so after two
consecutive `Users` frames the roster is exactly the one rebuilt from the
second frame's names; concretely, `["a","b"]` then `["c"]` leaves exactly
the profile for `"c"`. -/
theorem C6_users_frames_replace_roster :
    (∀ (st : Chat) (ns1 ns2 : List String),
      ((handleWsMsg st ⟨.Users, some ns1, none⟩).bind fun p =>
          handleWsMsg p.1 ⟨.Users, some ns2, none⟩)
        = some (⟨rebuildUsers ns2, st.messages⟩, true))
    ∧ ((update ⟨[], []⟩
          (.HandleMsg
            "\x7b\"messageType\":\"users\",\"dataArray\":[\"a\",\"b\"],\"data\":null\x7d")).bind
        fun r =>
          update r.1
            (.HandleMsg
              "\x7b\"messageType\":\"users\",\"dataArray\":[\"c\"],\"data\":null\x7d"))
      = some (⟨[⟨"c", avatarUrl "c"⟩], []⟩, true, []) :=
  ⟨fun _ _ _ => rfl, by decide⟩

/-- C7: on a non-empty name list the roster rebuild yields one profile per
name, in order, with the avatar URL template applied to that name, and
duplicate names yield duplicate profiles. -/
theorem C7_rebuild_shape (names : List String) (_h : names ≠ []) :
    (rebuildUsers names).length = names.length
    ∧ (∀ (i : Nat) (h1 : i < (rebuildUsers names).length) (h2 : i < names.length),
        (rebuildUsers names)[i] = ⟨names[i], avatarUrl names[i]⟩)
    ∧ rebuildUsers ["a", "a"] = [⟨"a", avatarUrl "a"⟩, ⟨"a", avatarUrl "a"⟩] := by
  refine ⟨by simp [rebuildUsers], fun i h1 h2 => ?_, by decide⟩
  simp [rebuildUsers]

/-- C7 witness: the rebuild shape at the concrete name list `["a","b"]`. -/
theorem C7_rebuild_shape_witness :
    (["a", "b"] : List String) ≠ []
    ∧ (rebuildUsers ["a", "b"]).length = (["a", "b"] : List String).length :=
  ⟨by decide, (C7_rebuild_shape ["a", "b"] (by decide)).1⟩

/-- C8: the render projection embeds a body as an image exactly when it
ends in the lowercase suffix `".gif"`; `"party.gif"` is an image,
`"hello"` and `"party.GIF"` are plain text. -/
theorem C8_gif_classification :
    (∀ body : String,
      renderBody body = .image body ↔ ∃ p : String, body = p ++ ".gif")
    ∧ renderBody "party.gif" = .image "party.gif"
    ∧ renderBody "hello" = .text "hello"
    ∧ renderBody "party.GIF" = .text "party.GIF" := by
  refine ⟨fun body => ?_, by decide, by decide, by decide⟩
  rw [← rustEndsWith_iff body ".gif"]
  unfold renderBody
  constructor
  · intro h
    by_contra hc
    rw [Bool.not_eq_true] at hc
    rw [hc] at h
    simp at h
  · intro h
    rw [h]
    simp

/-- C9: the log is append-only — whenever `Chat::update` processes an input
without panicking, the previous log is a prefix of the new one (entries are
only appended, never removed, mutated or reordered). -/
theorem C9_log_append_only (st : Chat) (m : Msg) (res : Chat × Bool × List String)
    (h : update st m = some res) : ∃ t, st.messages ++ t = res.1.messages := by
  cases m with
  | SubmitMessage i =>
    cases i with
    | none =>
      simp only [update] at h
      exact ⟨[], by simp [← Option.some_inj.mp h]⟩
    | some input =>
      simp only [update] at h
      exact ⟨[], by simp [← Option.some_inj.mp h]⟩
  | HandleMsg s =>
    rcases hm : fromStrWSM s with _ | wm
    · simp [update, hm] at h
    · simp only [update, hm] at h
      rcases hh : handleWsMsg st wm with _ | p
      · rw [hh] at h; exact absurd h (by simp)
      · rw [hh] at h
        have hres : res = (p.1, p.2, []) := by
          cases p; exact (Option.some_inj.mp h).symm
        subst hres
        cases hmt : wm.message_type with
        | Users =>
          refine ⟨[], ?_⟩
          simp only [handleWsMsg, hmt] at hh
          cases p
          cases Option.some_inj.mp hh
          simp
        | Register =>
          refine ⟨[], ?_⟩
          simp only [handleWsMsg, hmt] at hh
          cases p
          cases Option.some_inj.mp hh
          simp
        | Message =>
          simp only [handleWsMsg, hmt] at hh
          rcases hd : wm.data with _ | payload
          · rw [hd] at hh; exact absurd hh (by simp)
          · simp only [hd] at hh
            rcases hmd : fromStrMessageData payload with _ | md
            · rw [hmd] at hh; exact absurd hh (by simp)
            · rw [hmd] at hh
              refine ⟨[md], ?_⟩
              cases p
              cases Option.some_inj.mp hh
              simp

/-- C9 witness: a processed `Message` frame appends exactly its entry. -/
theorem C9_log_append_only_witness :
    update ⟨[], []⟩
        (.HandleMsg
          "\x7b\"messageType\":\"message\",\"data\":\"\x7b\\\"from\\\":\\\"a\\\",\\\"message\\\":\\\"hi\\\"\x7d\"\x7d")
      = some (⟨[], [⟨"a", "hi"⟩]⟩, true, [])
    ∧ ∃ t, (⟨[], []⟩ : Chat).messages ++ t
        = ((⟨[], [⟨"a", "hi"⟩]⟩ : Chat), true, ([] : List String)).1.messages :=
  ⟨by decide,
    C9_log_append_only ⟨[], []⟩
      (.HandleMsg
        "\x7b\"messageType\":\"message\",\"data\":\"\x7b\\\"from\\\":\\\"a\\\",\\\"message\\\":\\\"hi\\\"\x7d\"\x7d")
      (⟨[], [⟨"a", "hi"⟩]⟩, true, []) (by decide)⟩

/-! ### Round-trip of the wire codec (towards C5) -/

/-- Unescaping inverts escaping, character list by character list. -/
theorem parseStrBody_escape (cs rest : List Char) :
    parseStrBody (escapeList cs ++ '"' :: rest) = some (cs, rest) := by
  induction cs with
  | nil =>
    show parseStrBody ('"' :: rest) = some ([], rest)
    rw [parseStrBody.eq_def]
    simp
  | cons c cs ih =>
    by_cases h1 : c = '"'
    · subst h1; simp +decide [escapeList, escapeChar, parseStrBody, unescapeChar, ih]
    · by_cases h2 : c = '\\'
      · subst h2; simp +decide [escapeList, escapeChar, parseStrBody, unescapeChar, ih]
      · by_cases h3 : c = '\n'
        · subst h3; simp +decide [escapeList, escapeChar, parseStrBody, unescapeChar, ih]
        · by_cases h4 : c = '\t'
          · subst h4; simp +decide [escapeList, escapeChar, parseStrBody, unescapeChar, ih]
          · by_cases h5 : c = '\r'
            · subst h5
              simp +decide [escapeList, escapeChar, parseStrBody, unescapeChar, ih]
            · rw [show escapeList (c :: cs) = escapeChar c ++ escapeList cs from rfl,
                List.append_assoc, escapeChar, if_neg h1, if_neg h2, if_neg h3, if_neg h4,
                if_neg h5, List.singleton_append, parseStrBody.eq_def]
              simp [h1, h2, ih]

/-- A string literal is not whitespace-headed. -/
theorem skipWs_strLit (s : String) (rest : List Char) :
    skipWs (strLit s ++ rest) = strLit s ++ rest := by
  simp [strLit, skipWs, isWsChar]

/-- Parsing a printed string literal. -/
theorem parseVal_strLit (f : Nat) (s : String) (rest : List Char) :
    parseVal (f + 1) (strLit s ++ rest) = some (.str s, rest) := by
  cases s with
  | mk data =>
    have hshape : strLit ⟨data⟩ ++ rest = '"' :: (escapeList data ++ '"' :: rest) := by
      simp [strLit]
    rw [hshape]
    simp only [parseVal]
    simp +decide [skipWs, isWsChar, parseStrBody_escape]

/-- Parsing a printed `null`. -/
theorem parseVal_null (f : Nat) (rest : List Char) :
    parseVal (f + 1) (nullChars ++ rest) = some (.null, rest) := by
  simp +decide [parseVal, nullChars, skipWs, isWsChar]

/-- Parsing the printed value of an `Option<String>` field. -/
theorem parseVal_optStr (f : Nat) (d : Option String) (rest : List Char) :
    parseVal (f + 1) (optStrChars d ++ rest) = some (jsonOfOptStr d, rest) := by
  cases d with
  | none => exact parseVal_null f rest
  | some s => exact parseVal_strLit f s rest

/-- A printed name list always starts with a quote. -/
theorem namesBody_shape (n : String) (ns : List String) :
    ∃ t, namesBody n ns = '"' :: t := by
  cases ns with
  | nil => exact ⟨_, rfl⟩
  | cons n' ns => exact ⟨_, rfl⟩

/-- Parsing the printed elements of a non-empty name array. -/
theorem parseListAux_names (ns : List String) (n : String) (f g : Nat) (rest : List Char) :
    parseListAux (parseVal (g + 1)) (f + ns.length + 1) (namesBody n ns ++ ']' :: rest)
      = some ((n :: ns).map Json.str, rest) := by
  induction ns generalizing n with
  | nil =>
    show parseListAux (parseVal (g + 1)) (f + 1) (strLit n ++ ']' :: rest) = _
    rw [parseListAux.eq_2, parseVal_strLit]
    simp +decide [skipWs, isWsChar]
  | cons n' ns ih =>
    show parseListAux (parseVal (g + 1)) ((f + ns.length + 1) + 1)
        ((strLit n ++ ',' :: namesBody n' ns) ++ ']' :: rest) = _
    rw [List.append_assoc, List.cons_append, parseListAux.eq_2, parseVal_strLit]
    simp only [show skipWs (',' :: (namesBody n' ns ++ ']' :: rest))
        = ',' :: (namesBody n' ns ++ ']' :: rest) by simp +decide [skipWs, isWsChar], ih]
    simp

/-- Parsing the printed value of the `data_array` field. -/
theorem parseVal_optArr (a : Option (List String)) (g : Nat) (rest : List Char) :
    parseVal (g + (a.getD []).length + 2) (optArrChars a ++ rest)
      = some (jsonOfOptArr a, rest) := by
  cases a with
  | none => exact parseVal_null (g + 1) rest
  | some ns =>
    cases ns with
    | nil =>
      show parseVal ((g + 1) + 1) ('[' :: ']' :: rest) = some (.arr [], rest)
      rw [parseVal.eq_2]
      simp +decide [skipWs, isWsChar]
    | cons n ns' =>
      simp only [Option.getD_some, List.length_cons]
      rw [show g + (ns'.length + 1) + 2 = ((g + 1) + ns'.length + 1) + 1 by omega]
      rw [show optArrChars (some (n :: ns')) ++ rest
          = '[' :: (namesBody n ns' ++ ']' :: rest) by simp [optArrChars]]
      rw [parseVal.eq_2]
      obtain ⟨t, ht⟩ := namesBody_shape n ns'
      rw [show skipWs ('[' :: (namesBody n ns' ++ ']' :: rest))
          = '[' :: (namesBody n ns' ++ ']' :: rest) by simp +decide [skipWs, isWsChar]]
      rw [ht]
      simp only [List.cons_append]
      rw [show skipWs ('"' :: (t ++ ']' :: rest)) = '"' :: (t ++ ']' :: rest) by
        simp +decide [skipWs, isWsChar]]
      show (match parseListAux (parseVal (g + 1 + ns'.length + 1)) (g + 1 + ns'.length + 1)
          ('"' :: (t ++ ']' :: rest)) with
        | none => none
        | some (vs, rest') => some (Json.arr vs, rest'))
        = some (jsonOfOptArr (some (n :: ns')), rest)
      rw [← List.cons_append, ← ht, parseListAux_names ns' n (g + 1) ((g + 1) + ns'.length)]
      simp [jsonOfOptArr]

/-- Parsing the last printed member of an object. -/
theorem parseMembersAux_last (pv : List Char → Option (Json × List Char)) (key : String)
    (vchars : List Char) (v : Json) (f : Nat)
    (hv : ∀ rest, pv (vchars ++ rest) = some (v, rest)) :
    parseMembersAux pv (f + 1) (strLit key ++ (':' :: (vchars ++ ['\x7d'])))
      = some ([(key, v)], []) := by
  cases key with
  | mk kdata =>
    rw [show strLit ⟨kdata⟩ ++ (':' :: (vchars ++ ['\x7d']))
        = '"' :: (escapeList kdata ++ '"' :: (':' :: (vchars ++ ['\x7d']))) by
      simp [strLit]]
    rw [parseMembersAux.eq_2]
    simp +decide [skipWs, isWsChar, parseStrBody_escape, hv]

/-- Parsing one printed member of an object, followed by more members. -/
theorem parseMembersAux_cons (pv : List Char → Option (Json × List Char)) (key : String)
    (vchars : List Char) (v : Json) (tail : List Char) (ms : List (String × Json)) (f : Nat)
    (hv : ∀ rest, pv (vchars ++ rest) = some (v, rest))
    (htail : parseMembersAux pv f tail = some (ms, [])) :
    parseMembersAux pv (f + 1) (strLit key ++ (':' :: (vchars ++ (',' :: tail))))
      = some ((key, v) :: ms, []) := by
  cases key with
  | mk kdata =>
    rw [show strLit ⟨kdata⟩ ++ (':' :: (vchars ++ (',' :: tail)))
        = '"' :: (escapeList kdata ++ '"' :: (':' :: (vchars ++ ',' :: tail))) by
      simp [strLit]]
    rw [parseMembersAux.eq_2]
    simp +decide [skipWs, isWsChar, parseStrBody_escape, hv, htail]

/-- Parsing a printed non-empty object from its member characters. -/
theorem parseVal_obj (f : Nat) (key : String) (t rest : List Char) (ms : List (String × Json))
    (h : parseMembersAux (parseVal f) f (strLit key ++ t) = some (ms, rest)) :
    parseVal (f + 1) ('\x7b' :: (strLit key ++ t)) = some (.obj ms, rest) := by
  cases key with
  | mk kdata =>
    have hshape : strLit ⟨kdata⟩ ++ t = '"' :: (escapeList kdata ++ '"' :: t) := by
      simp [strLit]
    rw [hshape] at h ⊢
    rw [parseVal.eq_2]
    rw [show skipWs ('\x7b' :: ('"' :: (escapeList kdata ++ '"' :: t)))
        = '\x7b' :: ('"' :: (escapeList kdata ++ '"' :: t)) by simp +decide [skipWs, isWsChar]]
    show (match parseMembersAux (parseVal f) f ('"' :: (escapeList kdata ++ '"' :: t)) with
      | none => none
      | some (ms', rest') => some (Json.obj ms', rest'))
      = some (.obj ms, rest)
    rw [h]

/-- Parsing a printed `WebSocketMessage` yields its JSON value and consumes
all input. -/
theorem parseVal_wsmChars (m : WebSocketMessage) (f : Nat) :
    parseVal (f + (m.data_array.getD []).length + 4) (encodeWSMStr m).data
      = some (wsmJson m, []) := by
  obtain ⟨mt, a, d⟩ := m
  show parseVal ((f + (a.getD []).length + 3) + 1)
      ('\x7b' :: (strLit "messageType" ++ (':' :: (strLit (msgTypeToken mt)
        ++ (',' :: (strLit "dataArray" ++ (':' :: (optArrChars a
        ++ (',' :: (strLit "data" ++ (':' :: (optStrChars d ++ ['\x7d']))))))))))))
      = some (.obj [("messageType", .str (msgTypeToken mt)), ("dataArray", jsonOfOptArr a),
          ("data", jsonOfOptStr d)], [])
  refine parseVal_obj (f + (a.getD []).length + 3) "messageType" _ _ _ ?_
  refine parseMembersAux_cons _ _ _ _ _ _ (f + (a.getD []).length + 2)
    (fun rest => parseVal_strLit (f + (a.getD []).length + 2) (msgTypeToken mt) rest) ?_
  refine parseMembersAux_cons _ _ _ _ _ _ (f + (a.getD []).length + 1)
    (fun rest => ?_) ?_
  · have hx := parseVal_optArr a (f + 1) rest
    rwa [show (f + 1) + (a.getD []).length + 2 = f + (a.getD []).length + 3 by omega] at hx
  · exact parseMembersAux_last _ _ _ _ (f + (a.getD []).length)
      (fun rest => parseVal_optStr (f + (a.getD []).length + 2) d rest)

theorem strLit_length (s : String) : (strLit s).length = (escapeList s.data).length + 2 := by
  simp [strLit]

theorem namesBody_length (n : String) (ns : List String) :
    ns.length + 1 ≤ (namesBody n ns).length := by
  induction ns generalizing n with
  | nil => simp [namesBody, strLit_length]
  | cons n' ns ih =>
    have := ih n'
    simp only [namesBody, List.length_append, List.length_cons, List.length_nil]
    omega

theorem optArrChars_length (a : Option (List String)) :
    (a.getD []).length ≤ (optArrChars a).length := by
  cases a with
  | none => simp [optArrChars, nullChars]
  | some ns =>
    cases ns with
    | nil => simp [optArrChars]
    | cons n ns' =>
      have := namesBody_length n ns'
      simp only [optArrChars, Option.getD_some, List.length_cons, List.length_append,
        List.length_nil]
      omega

theorem encodeWSMStr_length (m : WebSocketMessage) :
    (m.data_array.getD []).length + 3 ≤ (encodeWSMStr m).data.length := by
  have hdata : (encodeWSMStr m).data
      = '\x7b' :: (strLit "messageType" ++ (':' :: (strLit (msgTypeToken m.message_type)
        ++ (',' :: (strLit "dataArray" ++ (':' :: (optArrChars m.data_array
        ++ (',' :: (strLit "data" ++ (':' :: (optStrChars m.data ++ ['\x7d']))))))))))) := rfl
  rw [hdata]
  have := optArrChars_length m.data_array
  simp only [List.length_cons, List.length_append, List.length_nil]
  omega

/-- `serde_json::from_str` inverts `serde_json::to_string` on every frame. -/
theorem parseJson_encodeWSMStr (m : WebSocketMessage) :
    parseJson (encodeWSMStr m) = some (wsmJson m) := by
  unfold parseJson
  rw [show (encodeWSMStr m).data.length + 1
      = ((encodeWSMStr m).data.length - ((m.data_array.getD []).length + 3))
        + (m.data_array.getD []).length + 4 by
    have := encodeWSMStr_length m
    omega]
  rw [parseVal_wsmChars]
  rfl

/-- Parsing a printed `MessageData` yields its JSON value and consumes all
input. -/
theorem parseVal_mdChars (e : MessageData) (f : Nat) :
    parseVal (f + 3) (encodeMessageDataStr e).data = some (mdJson e, []) := by
  obtain ⟨ef, em⟩ := e
  show parseVal ((f + 2) + 1)
      ('\x7b' :: (strLit "from" ++ (':' :: (strLit ef
        ++ (',' :: (strLit "message" ++ (':' :: (strLit em ++ ['\x7d']))))))))
      = some (.obj [("from", .str ef), ("message", .str em)], [])
  refine parseVal_obj (f + 2) "from" _ _ _ ?_
  refine parseMembersAux_cons _ _ _ _ _ _ (f + 1)
    (fun rest => parseVal_strLit (f + 1) ef rest) ?_
  exact parseMembersAux_last _ _ _ _ f (fun rest => parseVal_strLit (f + 1) em rest)

theorem encodeMessageDataStr_length (e : MessageData) :
    3 ≤ (encodeMessageDataStr e).data.length := by
  have hdata : (encodeMessageDataStr e).data
      = '\x7b' :: (strLit "from" ++ (':' :: (strLit e.«from»
        ++ (',' :: (strLit "message" ++ (':' :: (strLit e.message ++ ['\x7d']))))))) := rfl
  rw [hdata]
  simp only [List.length_cons, List.length_append, List.length_nil]
  omega

theorem parseJson_encodeMessageDataStr (e : MessageData) :
    parseJson (encodeMessageDataStr e) = some (mdJson e) := by
  unfold parseJson
  rw [show (encodeMessageDataStr e).data.length + 1
      = ((encodeMessageDataStr e).data.length - 2) + 3 by
    have := encodeMessageDataStr_length e
    omega]
  rw [parseVal_mdChars]
  rfl

theorem decodeStrList_map (ns : List String) :
    decodeStrList (ns.map .str) = some ns := by
  induction ns with
  | nil => rfl
  | cons n ns ih => simp [decodeStrList, ih]

/-- Deserializing the JSON value of an encoded frame recovers the frame. -/
theorem decodeWSM_wsmJson (m : WebSocketMessage) : decodeWSM (wsmJson m) = some m := by
  obtain ⟨mt, a, d⟩ := m
  cases mt <;> cases a <;> cases d <;>
    simp +decide [decodeWSM, wsmJson, getField, List.find?, msgTypeToken, decodeMsgTypes,
      jsonOfOptArr, jsonOfOptStr, decodeOptArr, decodeOptStr, decodeStrList_map]

/-- Deserializing the JSON value of an encoded chat entry recovers it. -/
theorem decodeMessageData_mdJson (e : MessageData) :
    decodeMessageData (mdJson e) = some e := by
  obtain ⟨ef, em⟩ := e
  simp +decide [decodeMessageData, mdJson, getField, List.find?, asString]

/-- C5: decoding the wire text produced by encoding recovers the original
frame, and likewise for the nested chat-entry codec. -/
theorem C5_roundtrip :
    (∀ m : WebSocketMessage, fromStrWSM (encodeWSMStr m) = some m)
    ∧ (∀ e : MessageData, fromStrMessageData (encodeMessageDataStr e) = some e) :=
  ⟨fun m => by
      simp [fromStrWSM, parseJson_encodeWSMStr, decodeWSM_wsmJson],
    fun e => by
      simp [fromStrMessageData, parseJson_encodeMessageDataStr, decodeMessageData_mdJson]⟩

/-- C10: every inbound `Users` frame whose `dataArray` is absent does not
panic: the missing field is read as the empty list, the roster is replaced
by the empty roster, and a re-render is requested — for every decoded frame
with `data_array = none` (whatever its `data` field), for every wire text
decoding to such a frame, and concretely for `\x7b"messageType":"users"\x7d`. -/
theorem C10_users_frame_without_dataArray :
    (∀ (st : Chat) (d : Option String),
      handleWsMsg st ⟨.Users, none, d⟩ = some (⟨[], st.messages⟩, true))
    ∧ (∀ (st : Chat) (s : String) (m : WebSocketMessage),
        fromStrWSM s = some m → m.message_type = .Users → m.data_array = none →
        update st (.HandleMsg s) = some (⟨[], st.messages⟩, true, []))
    ∧ (∀ st : Chat, update st (.HandleMsg "\x7b\"messageType\":\"users\"\x7d")
        = some (⟨[], st.messages⟩, true, [])) := by
  refine ⟨fun st d => rfl, ?_, fun st => rfl⟩
  intro st s m hs h1 h2
  obtain ⟨mt, da, d⟩ := m
  cases h1
  cases h2
  simp [update, hs, handleWsMsg, rebuildUsers]

/-- C10 witness: the universal part at a concrete wire text whose
`dataArray` is absent while a `data` field is present. -/
theorem C10_users_frame_without_dataArray_witness :
    fromStrWSM "\x7b\"messageType\":\"users\",\"data\":\"x\"\x7d"
      = some ⟨.Users, none, some "x"⟩
    ∧ update ⟨[], []⟩ (.HandleMsg "\x7b\"messageType\":\"users\",\"data\":\"x\"\x7d")
        = some (⟨[], []⟩, true, []) :=
  ⟨by decide,
    C10_users_frame_without_dataArray.2.1 ⟨[], []⟩
      "\x7b\"messageType\":\"users\",\"data\":\"x\"\x7d"
      ⟨.Users, none, some "x"⟩ (by decide) rfl rfl⟩

end YewChat
